import Mathlib

/-!
# Verification of the CDN download-log ingestion job

A shallow embedding of `src/worker/jobs/downloads/process_log.rs` from the
crates.io backend: the background job that parses a CDN access-log file into
per-(crate, version, day) download counts and merges them additively into the
`version_downloads` ledger inside a single database transaction.

Database tables (`crates`, `versions`, `version_downloads`, and the temporary
`temp_downloads`) are modelled as lists of row structures; the Postgres
transaction is modelled as a combinator that commits the new state on success
and restores the old state on failure; external database failures are modelled
by explicit fault flags so that error paths are expressible.
-/

namespace ProcessCdnLog

/-- Calendar dates only ever flow through the pipeline as opaque keys, so a
`NaiveDate` is modelled as a natural number. -/
abbrev Date := Nat

/-- A row of the `crates` catalog table: `crates.id` and `crates.name`.
The table carries a unique index on `name`. -/
structure CrateRow where
  id : Nat
  name : String
deriving DecidableEq, Repr

/-- A row of the `versions` catalog table: `versions.id`, `versions.crate_id`
and the semver string `versions.num`. `(crate_id, num)` is unique. -/
structure VersionRow where
  id : Nat
  crate_id : Nat
  num : String
deriving DecidableEq, Repr

/-- A row of the persistent `version_downloads` ledger, keyed by
`(version_id, date)` with a cumulative `downloads` counter. -/
structure VersionDownloadRow where
  version_id : Nat
  date : Date
  downloads : Int
deriving DecidableEq, Repr

/-- The `NewDownload` helper struct from `process_log.rs`: one staged row of
the temporary `temp_downloads` table, with `downloads` already cast to `i64`
(`BigInt` on the Diesel side). A `semver::Version` is represented by its
rendered string, since the code only ever calls `to_string()` on it and
compares it against `versions.num`. -/
structure NewDownload where
  name : String
  version : String
  date : Date
  downloads : Int
deriving DecidableEq, Repr

/-- The database state visible to one run of the job: the two read-only
catalog tables, the persistent ledger, and the connection-local temporary
`temp_downloads` table (`none` when the table does not exist). -/
structure Db where
  crates : List CrateRow
  versions : List VersionRow
  version_downloads : List VersionDownloadRow
  temp_downloads : Option (List NewDownload)
deriving DecidableEq, Repr

/-- Modelled from the spec: one entry of the `DownloadsMap` produced by the
external `crates_io_cdn_logs::count_downloads` collaborator — a crate name,
a version string, a date and an unsigned 64-bit download count. -/
abbrev DownloadEntry := String × String × Date × Nat

/-- Modelled from the spec: the `DownloadsMap` aggregate of the external
`crates_io_cdn_logs` crate, exported as its ordered sequence of entries
(`into_vec`); the spec guarantees at most one entry per (name, version, date)
key. -/
abbrev DownloadsMap := List DownloadEntry

/-- Method `DownloadsMap::into_vec`: export the aggregate as an ordered sequence. -/
def DownloadsMap.into_vec (m : DownloadsMap) : List DownloadEntry := m

/-- Method `DownloadsMap::is_empty`. -/
def DownloadsMap.is_empty (m : DownloadsMap) : Bool := m.isEmpty

/-- Method `DownloadsMap::sum_downloads`: total downloads across all entries. -/
def DownloadsMap.sum_downloads (m : DownloadsMap) : Nat :=
  (m.map (fun e => e.2.2.2)).sum

/-- Method chain `DownloadsMap::unique_crates().len()`: number of distinct crate names. -/
def DownloadsMap.num_crates (m : DownloadsMap) : Nat :=
  (m.map (fun e => e.1)).dedup.length

/-- Method `DownloadsMap::len`: number of distinct (name, version, date) entries. -/
def DownloadsMap.len (m : DownloadsMap) : Nat := m.length

/-- Rust's `u64 as i64` cast: reinterpret the low 64 bits as a signed value. -/
def u64_as_i64 (n : Nat) : Int :=
  if n % 2 ^ 64 < 2 ^ 63 then ((n % 2 ^ 64 : Nat) : Int)
  else ((n % 2 ^ 64 : Nat) : Int) - 2 ^ 64

/-- Conversion `NewDownload::from`: convert a `DownloadsMap` entry into a staging row,
rendering the version to a string and casting the `u64` count `as i64`. -/
def NewDownload.fromEntry (e : DownloadEntry) : NewDownload :=
  { name := e.1, version := e.2.1, date := e.2.2.1, downloads := u64_as_i64 e.2.2.2 }

/-- Whether a value fits Postgres's 4-byte `INTEGER` column type, the declared
type of `temp_downloads.downloads` in the `CREATE TEMPORARY TABLE` statement. -/
def fitsInteger (v : Int) : Bool := -(2 ^ 31) ≤ v && v ≤ 2 ^ 31 - 1

/-- Errors a database statement can produce in this model. -/
inductive DbError where
  /-- An external database failure (connection loss, etc.) injected into the
  given phase; models the `QueryResult` error paths of the three statements. -/
  | databaseFailure (phase : Nat)
  /-- Postgres `integer out of range`: a staged value does not fit the
  `INTEGER` column of `temp_downloads`. -/
  | integerOutOfRange
  /-- A statement referenced the `temp_downloads` table while it does not
  exist on this connection. -/
  | missingTable
  /-- `CREATE TEMPORARY TABLE temp_downloads` while the table already exists
  on this connection. -/
  | duplicateTable
  /-- Postgres `ON CONFLICT DO UPDATE command cannot affect row a second
  time`: two staged rows resolved to the same `(version_id, date)` key. -/
  | onConflictRowTwice
deriving DecidableEq, Repr

/-- Fault flags standing for external database failures of the three
statements of `save_downloads`; all `false` means the database itself never
fails. -/
structure DbFaults where
  failCreate : Bool
  failFill : Bool
  failMerge : Bool
deriving DecidableEq, Repr

/-- A fault assignment under which the database never fails on its own. -/
def noFaults : DbFaults := ⟨false, false, false⟩

/-- Function `create_temp_downloads_table`: `CREATE TEMPORARY TABLE temp_downloads
(name VARCHAR, version VARCHAR, date DATE, downloads INTEGER) ON COMMIT DROP`. -/
def create_temp_downloads_table (f : DbFaults) (db : Db) : Except DbError Db :=
  if f.failCreate then .error (.databaseFailure 0)
  else
    match db.temp_downloads with
    | some _ => .error .duplicateTable
    | none => .ok { db with temp_downloads := some [] }

/-- The staged batch of `fill_temp_downloads_table`: the `DownloadsMap`
exported with `into_vec` and converted row by row through `NewDownload::from`. -/
def staged_rows (m : DownloadsMap) : List NewDownload :=
  (DownloadsMap.into_vec m).map NewDownload.fromEntry

/-- Function `fill_temp_downloads_table`: convert every `DownloadsMap` entry through
`NewDownload::from` and bulk-`INSERT` the batch into `temp_downloads`. The
insert fails with `integer out of range` when a cast count does not fit the
table's `INTEGER` column. -/
def fill_temp_downloads_table (f : DbFaults) (m : DownloadsMap) (db : Db) :
    Except DbError Db :=
  if f.failFill then .error (.databaseFailure 1)
  else
    match db.temp_downloads with
    | none => .error .missingTable
    | some existing =>
      if (staged_rows m).all (fun r => fitsInteger r.downloads) then
        .ok { db with temp_downloads := some (existing ++ staged_rows m) }
      else
        .error .integerOutOfRange

/-- The `LEFT JOIN crates ON crates.name = temp_downloads.name LEFT JOIN
versions ON versions.num = temp_downloads.version AND versions.crate_id =
crates.id` lookup of `save_to_version_downloads`, resolving a (name, version
string) pair to a `versions.id`. `find?` reflects the unique indexes on
`crates.name` and `(versions.crate_id, versions.num)`. -/
def lookup_version_id (crates : List CrateRow) (versions : List VersionRow)
    (name version : String) : Option Nat :=
  match crates.find? (fun c => c.name == name) with
  | none => none
  | some c => (versions.find? (fun v => v.num == version && v.crate_id == c.id)).map
      (fun v => v.id)

/-- The staged rows of `joined_data` whose `versions.id` resolved
(`WHERE joined_data.id IS NOT NULL`), as `(version_id, date, downloads)`
tuples ready for insertion into `version_downloads`. -/
def matched_inserts (crates : List CrateRow) (versions : List VersionRow)
    (rows : List NewDownload) : List (Nat × Date × Int) :=
  rows.filterMap fun r =>
    (lookup_version_id crates versions r.name r.version).map
      (fun vid => (vid, r.date, r.downloads))

/-- The staged rows of `joined_data` with no catalog match
(`WHERE joined_data.id IS NULL`), reported as `(name, version)` pairs —
the `NameAndVersion` result rows of `save_to_version_downloads`. -/
def unmatched_pairs (crates : List CrateRow) (versions : List VersionRow)
    (rows : List NewDownload) : List (String × String) :=
  rows.filterMap fun r =>
    match lookup_version_id crates versions r.name r.version with
    | none => some (r.name, r.version)
    | some _ => none

/-- One `INSERT ... ON CONFLICT (version_id, date) DO UPDATE SET downloads =
version_downloads.downloads + EXCLUDED.downloads` for a single row: add to
the existing counter when the key is present, insert the row otherwise. -/
def upsert_version_download (rows : List VersionDownloadRow) (vid : Nat)
    (date : Date) (cnt : Int) : List VersionDownloadRow :=
  if rows.any (fun r => r.version_id == vid && r.date == date) then
    rows.map fun r =>
      if r.version_id == vid && r.date == date then
        { r with downloads := r.downloads + cnt }
      else r
  else
    rows ++ [{ version_id := vid, date := date, downloads := cnt }]

/-- Apply the additive upsert for every matched staged row. -/
def apply_matched (ledger : List VersionDownloadRow)
    (matched : List (Nat × Date × Int)) : List VersionDownloadRow :=
  matched.foldl (fun acc x => upsert_version_download acc x.1 x.2.1 x.2.2) ledger

/-- Function `save_to_version_downloads`: merge `temp_downloads` into
`version_downloads` through the `joined_data` CTE — matched rows are upserted
additively, unmatched (name, version) pairs are returned. Postgres rejects a
single `ON CONFLICT DO UPDATE` statement in which two source rows affect the
same target row, hence the `Nodup` guard on the resolved keys. -/
def save_to_version_downloads (f : DbFaults) (db : Db) :
    Except DbError (Db × List (String × String)) :=
  if f.failMerge then .error (.databaseFailure 2)
  else
    match db.temp_downloads with
    | none => .error .missingTable
    | some rows =>
      let matched := matched_inserts db.crates db.versions rows
      if (matched.map (fun x => (x.1, x.2.1))).Nodup then
        .ok ({ db with
                version_downloads := apply_matched db.version_downloads matched },
             unmatched_pairs db.crates db.versions rows)
      else
        .error .onConflictRowTwice

/-- Operational log events emitted by one run (`info!`/`warn!` calls), with
their data payloads in place of the formatted strings. -/
inductive LogEvent where
  /-- `info!("No downloads found in log file")`. -/
  | noDownloads
  /-- Function `log_stats`: total downloads, number of crates, number of needed
  inserts. -/
  | stats (total_downloads : Nat) (num_crates : Nat) (total_inserts : Nat)
  /-- Function `log_top_downloads`: the top `num` entries. -/
  | topDownloads (num : Nat) (entries : List DownloadEntry)
  /-- `warn!("Failed to insert downloads for ...")` with the unmatched
  (name, version) pairs. -/
  | failedInserts (pairs : List (String × String))
deriving DecidableEq, Repr

/-- Function `save_downloads`: the three statements run in order on one connection;
a non-empty unmatched list is logged as a warning but is not an error. -/
def save_downloads (f : DbFaults) (m : DownloadsMap) (db : Db) :
    Except DbError (Db × List LogEvent) :=
  match create_temp_downloads_table f db with
  | .error e => .error e
  | .ok db =>
    match fill_temp_downloads_table f m db with
    | .error e => .error e
    | .ok db =>
      match save_to_version_downloads f db with
      | .error e => .error e
      | .ok (db, failed_inserts) =>
        .ok (db, if failed_inserts.isEmpty then [] else [.failedInserts failed_inserts])

/-- Method call `conn.transaction(...)`: run the body; on success commit the new state
(at which point `ON COMMIT DROP` removes the temporary table), on failure
roll the connection back to the pre-transaction state. -/
def transaction {α : Type} (db : Db) (body : Db → Except DbError (Db × α)) :
    Db × Except DbError α :=
  match body db with
  | .ok (db', a) => ({ db' with temp_downloads := none }, .ok a)
  | .error e => (db, .error e)

/-- Function `log_stats`: the three `info!` statistics lines. -/
def log_stats (m : DownloadsMap) : LogEvent :=
  .stats (DownloadsMap.sum_downloads m) (DownloadsMap.num_crates m)
    (DownloadsMap.len m)

/-- The comparison key of `log_top_downloads`:
`sort_by_key(|(_, _, _, downloads)| Reverse(*downloads))`, so `a` may precede
`b` exactly when `b`'s count is at most `a`'s. -/
def by_downloads_desc (a b : DownloadEntry) : Bool :=
  decide (b.2.2.2 ≤ a.2.2.2)

/-- The entry list reported by `log_top_downloads`: stable-sort the exported
sequence by descending count (Rust's `sort_by_key` is stable) and keep the
first `num` entries. -/
def top_downloads (m : DownloadsMap) (num : Nat) : List DownloadEntry :=
  ((DownloadsMap.into_vec m).mergeSort by_downloads_desc).take num

/-- Function `log_top_downloads`: log the top `num` downloads. -/
def log_top_downloads (m : DownloadsMap) (num : Nat) : LogEvent :=
  .topDownloads num (top_downloads m num)

/-- Errors of the loading phase (object store access, decompressor selection,
log counting), preceding any database work. -/
inductive LoadError where
  /-- `store.head` found no object at the path. -/
  | metadataNotFound (path : String)
  /-- Transport/auth failure reading the object store. -/
  | transport (path : String)
  /-- `Decompressor::from_extension` does not support the extension. -/
  | unsupportedFormat (ext : String)
  /-- `count_downloads` failed. -/
  | countFailed
deriving DecidableEq, Repr

/-- A selected streaming decompressor. -/
inductive Decompressor where
  | gzip
  | passthrough
deriving DecidableEq, Repr

/-- Modelled from the spec: `Decompressor::from_extension` of the external
`crates_io_cdn_logs` crate (the Decompression Selector, §4.2) — a supported
extension maps to its concrete decompressor (gzip), an absent extension
yields a passthrough reader, and an unrecognized extension fails fast. -/
def decompressor_from_extension (ext : Option String) :
    Except LoadError Decompressor :=
  match ext with
  | none => .ok .passthrough
  | some "gz" => .ok .gzip
  | some e => .error (.unsupportedFormat e)

/-- Function `load_and_count`: request the object's metadata, select a decompressor
from the path's extension, then hand the decompressing reader to the external
`count_downloads` collaborator (abstracted as the `counter` argument). Each
`?` propagates the error before the next phase runs. -/
def load_and_count (head_result : Except LoadError Unit) (ext : Option String)
    (counter : Decompressor → Except LoadError DownloadsMap) :
    Except LoadError DownloadsMap :=
  match head_result with
  | .error e => .error e
  | .ok () =>
    match decompressor_from_extension ext with
    | .error e => .error e
    | .ok d => counter d

/-- A run's failure cause: a loading-phase error or a database error. -/
inductive RunError where
  | load (e : LoadError)
  | db (e : DbError)
deriving DecidableEq, Repr

/-- The observable outcome of one `run`: the database state, the emitted log
events in order, and success or the propagated failure. -/
structure RunOutcome where
  db : Db
  log : List LogEvent
  result : Except RunError Unit
deriving Repr

/-- The `run` function of the job (after path parsing): count the downloads,
terminate successfully as a no-op when the map is empty, log the summary
statistics, then either merge inside one transaction (write mode) or log the
top 30 downloads (report-only mode). -/
def run (db : Db) (load_result : Except LoadError DownloadsMap)
    (writing_enabled : Bool) (f : DbFaults) : RunOutcome :=
  match load_result with
  | .error e => ⟨db, [], .error (.load e)⟩
  | .ok downloads =>
    if DownloadsMap.is_empty downloads then
      ⟨db, [.noDownloads], .ok ()⟩
    else if writing_enabled then
      match transaction db (save_downloads f downloads) with
      | (db', .ok inner_log) => ⟨db', log_stats downloads :: inner_log, .ok ()⟩
      | (db', .error e) => ⟨db', [log_stats downloads], .error (.db e)⟩
    else
      ⟨db, [log_stats downloads, log_top_downloads downloads 30], .ok ()⟩

/-- Cumulative downloads currently recorded in a ledger for a
`(version_id, date)` key, `none` when no row exists. -/
def find_downloads (rows : List VersionDownloadRow) (vid : Nat) (date : Date) :
    Option Int :=
  (rows.find? (fun r => r.version_id == vid && r.date == date)).map
    (fun r => r.downloads)

/-! ### Lemmas about the additive upsert and the merge fold -/

lemma apply_matched_nil (ledger : List VersionDownloadRow) :
    apply_matched ledger [] = ledger := rfl

lemma apply_matched_cons (ledger : List VersionDownloadRow) (x : Nat × Date × Int)
    (xs : List (Nat × Date × Int)) :
    apply_matched ledger (x :: xs) =
      apply_matched (upsert_version_download ledger x.1 x.2.1 x.2.2) xs := rfl

lemma find_downloads_cons (r : VersionDownloadRow) (rows : List VersionDownloadRow)
    (vid : Nat) (date : Date) :
    find_downloads (r :: rows) vid date =
      if r.version_id == vid && r.date == date then some r.downloads
      else find_downloads rows vid date := by
  unfold find_downloads
  by_cases h : (r.version_id == vid && r.date == date) = true
  · simp [List.find?_cons, h]
  · rw [Bool.not_eq_true] at h
    simp [List.find?_cons, h]

lemma find_downloads_map_add (rows : List VersionDownloadRow) (vid : Nat) (date : Date)
    (cnt : Int) :
    find_downloads
      (rows.map fun r =>
        if r.version_id == vid && r.date == date then
          { r with downloads := r.downloads + cnt }
        else r) vid date
    = (find_downloads rows vid date).map (fun o => o + cnt) := by
  induction rows with
  | nil => rfl
  | cons r rows ih =>
    simp only [List.map_cons]
    by_cases h : (r.version_id == vid && r.date == date) = true
    · rw [if_pos h]
      rw [find_downloads_cons, find_downloads_cons]
      simp only [h]
      simp
    · rw [if_neg h]
      rw [find_downloads_cons, find_downloads_cons]
      rw [Bool.not_eq_true] at h
      simp only [h]
      simpa using ih

lemma find_upsert_self (rows : List VersionDownloadRow) (vid : Nat) (date : Date) (cnt : Int) :
    find_downloads (upsert_version_download rows vid date cnt) vid date =
      some ((find_downloads rows vid date).getD 0 + cnt) := by
  unfold upsert_version_download
  by_cases h : (rows.any fun r => r.version_id == vid && r.date == date) = true
  · rw [if_pos h, find_downloads_map_add]
    cases heq : find_downloads rows vid date with
    | some o => simp [heq]
    | none =>
      obtain ⟨x, hx, hpx⟩ := List.any_eq_true.mp h
      unfold find_downloads at heq
      rw [Option.map_eq_none'] at heq
      exact absurd hpx (List.find?_eq_none.mp heq x hx)
  · rw [if_neg h]
    have hn : (rows.find? fun r => r.version_id == vid && r.date == date) = none :=
      List.find?_eq_none.mpr (by
        intro x hx hpx
        exact h (List.any_eq_true.mpr ⟨x, hx, hpx⟩))
    unfold find_downloads
    rw [List.find?_append, hn, Option.none_or]
    simp [List.find?_cons, hn]

lemma find_downloads_map_other (rows : List VersionDownloadRow) (vid : Nat) (date : Date)
    (cnt : Int) (vid' : Nat) (date' : Date) (hne : ¬(vid' = vid ∧ date' = date)) :
    find_downloads
      (rows.map fun r =>
        if r.version_id == vid && r.date == date then
          { r with downloads := r.downloads + cnt }
        else r) vid' date'
    = find_downloads rows vid' date' := by
  induction rows with
  | nil => rfl
  | cons r rows ih =>
    simp only [List.map_cons]
    by_cases h' : (r.version_id == vid' && r.date == date') = true
    · obtain ⟨h1, h2⟩ : r.version_id = vid' ∧ r.date = date' := by
        simpa using h'
      have hq : ¬((r.version_id == vid && r.date == date) = true) := by
        simp only [Bool.and_eq_true, beq_iff_eq]
        rintro ⟨ha, hb⟩
        exact hne ⟨h1.symm.trans ha, h2.symm.trans hb⟩
      rw [if_neg hq]
      rw [find_downloads_cons, find_downloads_cons]
      simp only [h']
      simp
    · by_cases hq : (r.version_id == vid && r.date == date) = true
      · rw [if_pos hq]
        rw [find_downloads_cons, find_downloads_cons]
        rw [Bool.not_eq_true] at h'
        simp only [h']
        simpa using ih
      · rw [if_neg hq]
        rw [find_downloads_cons, find_downloads_cons]
        rw [Bool.not_eq_true] at h'
        simp only [h']
        simpa using ih

lemma find_upsert_other (rows : List VersionDownloadRow) (vid : Nat) (date : Date) (cnt : Int)
    (vid' : Nat) (date' : Date) (hne : ¬(vid' = vid ∧ date' = date)) :
    find_downloads (upsert_version_download rows vid date cnt) vid' date' =
      find_downloads rows vid' date' := by
  unfold upsert_version_download
  by_cases h : (rows.any fun r => r.version_id == vid && r.date == date) = true
  · rw [if_pos h]
    exact find_downloads_map_other rows vid date cnt vid' date' hne
  · rw [if_neg h]
    have hnone : (List.find? (fun r => r.version_id == vid' && r.date == date')
        [({ version_id := vid, date := date, downloads := cnt } : VersionDownloadRow)]) =
          none := by
      rw [List.find?_eq_none]
      intro x hx
      simp only [List.mem_singleton] at hx
      subst hx
      simp only [Bool.and_eq_true, beq_iff_eq]
      rintro ⟨h1, h2⟩
      exact hne ⟨h1.symm, h2.symm⟩
    unfold find_downloads
    rw [List.find?_append, hnone, Option.or_none]

lemma find_apply_matched_of_not_mem (ledger : List VersionDownloadRow)
    (matched : List (Nat × Date × Int)) (vid : Nat) (date : Date)
    (h : ∀ x ∈ matched, ¬(vid = x.1 ∧ date = x.2.1)) :
    find_downloads (apply_matched ledger matched) vid date =
      find_downloads ledger vid date := by
  induction matched generalizing ledger with
  | nil => rfl
  | cons x xs ih =>
    rw [apply_matched_cons]
    rw [ih _ (fun y hy => h y (List.mem_cons_of_mem _ hy))]
    exact find_upsert_other ledger x.1 x.2.1 x.2.2 vid date (h x (List.mem_cons_self _ _))

lemma find_apply_matched_of_mem (ledger : List VersionDownloadRow)
    (matched : List (Nat × Date × Int)) (vid : Nat) (date : Date) (cnt : Int)
    (hmem : (vid, date, cnt) ∈ matched)
    (hnodup : (matched.map fun x => (x.1, x.2.1)).Nodup) :
    find_downloads (apply_matched ledger matched) vid date =
      some ((find_downloads ledger vid date).getD 0 + cnt) := by
  induction matched generalizing ledger with
  | nil => cases hmem
  | cons x xs ih =>
    simp only [List.map_cons, List.nodup_cons] at hnodup
    rw [apply_matched_cons]
    rcases List.mem_cons.mp hmem with heq | hmem'
    · subst heq
      have hkeys : ∀ y ∈ xs, ¬(vid = y.1 ∧ date = y.2.1) := by
        rintro y hy ⟨h1, h2⟩
        exact hnodup.1 (by
          rw [List.mem_map]
          exact ⟨y, hy, by simp [h1, h2]⟩)
      rw [find_apply_matched_of_not_mem _ _ _ _ hkeys]
      exact find_upsert_self ledger vid date cnt
    · have hxkey : ¬(vid = x.1 ∧ date = x.2.1) := by
        rintro ⟨h1, h2⟩
        exact hnodup.1 (by
          rw [List.mem_map]
          exact ⟨(vid, date, cnt), hmem', by simp [h1, h2]⟩)
      rw [ih _ hmem' hnodup.2]
      rw [find_upsert_other ledger x.1 x.2.1 x.2.2 vid date hxkey]

/-! ### Lemmas about the cast, the three merge phases, and the join -/

lemma u64_as_i64_of_small (n : Nat) (h : n ≤ 2 ^ 31 - 1) : u64_as_i64 n = (n : Int) := by
  unfold u64_as_i64
  have h1 : n % 2 ^ 64 = n := Nat.mod_eq_of_lt (by omega)
  rw [h1, if_pos (by omega)]

lemma fitsInteger_of_small (n : Nat) (h : n ≤ 2 ^ 31 - 1) :
    fitsInteger (u64_as_i64 n) = true := by
  rw [u64_as_i64_of_small n h]
  unfold fitsInteger
  simp only [Bool.and_eq_true, decide_eq_true_eq]
  constructor <;> omega

lemma create_temp_downloads_table_ok (f : DbFaults) (db : Db)
    (htemp : db.temp_downloads = none) (hf : f.failCreate = false) :
    create_temp_downloads_table f db = .ok { db with temp_downloads := some [] } := by
  unfold create_temp_downloads_table
  rw [hf, htemp]
  simp

lemma fill_temp_downloads_table_ok (f : DbFaults) (m : DownloadsMap) (db : Db)
    (rows : List NewDownload)
    (htemp : db.temp_downloads = some rows) (hf : f.failFill = false)
    (hfit : (staged_rows m).all (fun r => fitsInteger r.downloads) = true) :
    fill_temp_downloads_table f m db =
      .ok { db with temp_downloads := some (rows ++ staged_rows m) } := by
  unfold fill_temp_downloads_table
  rw [hf, htemp]
  simp [hfit]

lemma save_to_version_downloads_ok (f : DbFaults) (db : Db) (rows : List NewDownload)
    (htemp : db.temp_downloads = some rows) (hf : f.failMerge = false)
    (hnodup : ((matched_inserts db.crates db.versions rows).map
        fun x => (x.1, x.2.1)).Nodup) :
    save_to_version_downloads f db =
      .ok (⟨db.crates, db.versions,
            apply_matched db.version_downloads (matched_inserts db.crates db.versions rows),
            db.temp_downloads⟩,
           unmatched_pairs db.crates db.versions rows) := by
  unfold save_to_version_downloads
  rw [hf, htemp]
  simp [hnodup]

lemma save_downloads_ok (f : DbFaults) (m : DownloadsMap) (db : Db)
    (htemp : db.temp_downloads = none)
    (hc : f.failCreate = false) (hl : f.failFill = false) (hm : f.failMerge = false)
    (hfit : (staged_rows m).all (fun r => fitsInteger r.downloads) = true)
    (hnodup : ((matched_inserts db.crates db.versions (staged_rows m)).map
        fun x => (x.1, x.2.1)).Nodup) :
    save_downloads f m db =
      .ok (⟨db.crates, db.versions,
            apply_matched db.version_downloads
              (matched_inserts db.crates db.versions (staged_rows m)),
            some (staged_rows m)⟩,
           if (unmatched_pairs db.crates db.versions (staged_rows m)).isEmpty then []
           else [.failedInserts (unmatched_pairs db.crates db.versions (staged_rows m))]) := by
  unfold save_downloads
  rw [create_temp_downloads_table_ok f db htemp hc]
  dsimp only
  rw [fill_temp_downloads_table_ok f m _ [] rfl hl hfit]
  dsimp only
  rw [save_to_version_downloads_ok f _ (staged_rows m) (by simp) hm (by simpa using hnodup)]
  simp

lemma mem_matched_inserts (crates : List CrateRow) (versions : List VersionRow)
    (rows : List NewDownload) (r : NewDownload) (vid : Nat)
    (hr : r ∈ rows)
    (hvid : lookup_version_id crates versions r.name r.version = some vid) :
    (vid, r.date, r.downloads) ∈ matched_inserts crates versions rows := by
  unfold matched_inserts
  rw [List.mem_filterMap]
  exact ⟨r, hr, by rw [hvid]; rfl⟩

lemma mem_unmatched_pairs (crates : List CrateRow) (versions : List VersionRow)
    (rows : List NewDownload) (n v : String) :
    (n, v) ∈ unmatched_pairs crates versions rows ↔
      ∃ r ∈ rows, r.name = n ∧ r.version = v ∧
        lookup_version_id crates versions r.name r.version = none := by
  unfold unmatched_pairs
  rw [List.mem_filterMap]
  constructor
  · rintro ⟨r, hr, hsome⟩
    cases hl : lookup_version_id crates versions r.name r.version with
    | none =>
      rw [hl] at hsome
      injection hsome with hpair
      exact ⟨r, hr, congrArg Prod.fst hpair, congrArg Prod.snd hpair, hl⟩
    | some vid => rw [hl] at hsome; cases hsome
  · rintro ⟨r, hr, hn, hv, hl⟩
    exact ⟨r, hr, by rw [hl, hn, hv]⟩

lemma by_downloads_desc_trans : ∀ (a b c : DownloadEntry),
    by_downloads_desc a b → by_downloads_desc b c → by_downloads_desc a c := by
  intro a b c hab hbc
  unfold by_downloads_desc at *
  simp only [decide_eq_true_eq] at *
  omega

lemma by_downloads_desc_total : ∀ (a b : DownloadEntry),
    by_downloads_desc a b || by_downloads_desc b a := by
  intro a b
  unfold by_downloads_desc
  simp only [Bool.or_eq_true, decide_eq_true_eq]
  omega

/-! ### Sample catalog and inputs used by the witnesses -/

/-- A small catalog: two crates. -/
def sampleCrates : List CrateRow := [⟨1, "serde"⟩, ⟨2, "rand"⟩]

/-- A small catalog: one version per crate. -/
def sampleVersions : List VersionRow := [⟨7, 1, "1.0.0"⟩, ⟨8, 2, "0.8.5"⟩]

/-- Two staged rows: one with a catalog match, one without. -/
def sampleRows : List NewDownload :=
  [⟨"serde", "1.0.0", 20, 5⟩, ⟨"ghost", "0.0.1", 20, 3⟩]

/-- A database with an empty ledger and a filled `temp_downloads` table. -/
def sampleStagedDb : Db := ⟨sampleCrates, sampleVersions, [], some sampleRows⟩

/-- A `DownloadsMap` matching `sampleRows`. -/
def sampleMap : DownloadsMap := [("serde", "1.0.0", 20, 5), ("ghost", "0.0.1", 20, 3)]

/-- A database with an empty ledger and no temporary table. -/
def sampleDb : Db := ⟨sampleCrates, sampleVersions, [], none⟩

/-! ### The claims -/

/-- C1: for every staging row whose (package name, version string) resolves
to a version identity in the catalog, the merge upserts the ledger entry
keyed by (version identity, date): it inserts the staged count when no entry
exists, and sets the counter to the old counter plus the staged count when an
entry exists — never replacing the old value. -/
theorem merge_upserts_ledger_additively
    (f : DbFaults) (db : Db) (rows : List NewDownload) (r : NewDownload) (vid : Nat)
    (htemp : db.temp_downloads = some rows)
    (hf : f.failMerge = false)
    (hr : r ∈ rows)
    (hvid : lookup_version_id db.crates db.versions r.name r.version = some vid)
    (hnodup : ((matched_inserts db.crates db.versions rows).map
        fun x => (x.1, x.2.1)).Nodup) :
    ∃ db' unmatched,
      save_to_version_downloads f db = .ok (db', unmatched) ∧
      (find_downloads db.version_downloads vid r.date = none →
        find_downloads db'.version_downloads vid r.date = some r.downloads) ∧
      (∀ old, find_downloads db.version_downloads vid r.date = some old →
        find_downloads db'.version_downloads vid r.date = some (old + r.downloads)) := by
  refine ⟨_, _, save_to_version_downloads_ok f db rows htemp hf hnodup, ?_, ?_⟩
  · intro hnone
    have h := find_apply_matched_of_mem db.version_downloads _ vid r.date r.downloads
      (mem_matched_inserts db.crates db.versions rows r vid hr hvid) hnodup
    rw [hnone] at h
    simpa using h
  · intro old hold
    have h := find_apply_matched_of_mem db.version_downloads _ vid r.date r.downloads
      (mem_matched_inserts db.crates db.versions rows r vid hr hvid) hnodup
    rw [hold] at h
    simpa using h

/-- Witness for C1 at a concrete database and staged row. -/
theorem merge_upserts_ledger_additively_witness :
    sampleStagedDb.temp_downloads = some sampleRows ∧
    noFaults.failMerge = false ∧
    (⟨"serde", "1.0.0", 20, 5⟩ : NewDownload) ∈ sampleRows ∧
    lookup_version_id sampleStagedDb.crates sampleStagedDb.versions "serde" "1.0.0" =
      some 7 ∧
    ((matched_inserts sampleStagedDb.crates sampleStagedDb.versions sampleRows).map
        fun x => (x.1, x.2.1)).Nodup ∧
    (∃ db' unmatched,
      save_to_version_downloads noFaults sampleStagedDb = .ok (db', unmatched) ∧
      (find_downloads sampleStagedDb.version_downloads 7 20 = none →
        find_downloads db'.version_downloads 7 20 = some 5) ∧
      (∀ old, find_downloads sampleStagedDb.version_downloads 7 20 = some old →
        find_downloads db'.version_downloads 7 20 = some (old + 5))) :=
  ⟨rfl, rfl, by decide, rfl, by decide,
    merge_upserts_ledger_additively noFaults sampleStagedDb sampleRows
      ⟨"serde", "1.0.0", 20, 5⟩ 7 rfl rfl (by decide) rfl (by decide)⟩

/-- C2: all three merge phases run inside one database transaction; when any
phase fails, the whole transaction rolls back and the database — in
particular the ledger — is exactly as it was before the run: no partial
mutation from the run is visible. -/
theorem failed_merge_transaction_rolls_back
    (db : Db) (m : DownloadsMap) (f : DbFaults) (e : DbError)
    (hemp : DownloadsMap.is_empty m = false)
    (herr : save_downloads f m db = .error e) :
    transaction db (save_downloads f m) = (db, .error e) ∧
    run db (.ok m) true f = ⟨db, [log_stats m], .error (.db e)⟩ := by
  have h1 : transaction db (save_downloads f m) = (db, .error e) := by
    unfold transaction
    rw [herr]
  refine ⟨h1, ?_⟩
  unfold run
  simp [hemp, h1]

/-- Witness for C2: a failure injected into the staging-table creation rolls
the whole run back. -/
theorem failed_merge_transaction_rolls_back_witness :
    DownloadsMap.is_empty sampleMap = false ∧
    save_downloads ⟨true, false, false⟩ sampleMap sampleDb =
      .error (.databaseFailure 0) ∧
    transaction sampleDb (save_downloads ⟨true, false, false⟩ sampleMap) =
      (sampleDb, .error (.databaseFailure 0)) ∧
    run sampleDb (.ok sampleMap) true ⟨true, false, false⟩ =
      ⟨sampleDb, [log_stats sampleMap], .error (.db (.databaseFailure 0))⟩ :=
  ⟨by decide, rfl,
    (failed_merge_transaction_rolls_back sampleDb sampleMap ⟨true, false, false⟩
      (.databaseFailure 0) (by decide) rfl).1,
    (failed_merge_transaction_rolls_back sampleDb sampleMap ⟨true, false, false⟩
      (.databaseFailure 0) (by decide) rfl).2⟩

/-- C3: rows without a catalog match are excluded from the ledger write and
returned as unmatched (name, version) pairs, matching rows in the same batch
are still committed additively, and unmatched pairs never make the merge
return an error. -/
theorem unmatched_rows_reported_not_fatal
    (f : DbFaults) (db : Db) (rows : List NewDownload)
    (htemp : db.temp_downloads = some rows) (hf : f.failMerge = false)
    (hnodup : ((matched_inserts db.crates db.versions rows).map
        fun x => (x.1, x.2.1)).Nodup) :
    ∃ db',
      save_to_version_downloads f db =
        .ok (db', unmatched_pairs db.crates db.versions rows) ∧
      (∀ r ∈ rows, lookup_version_id db.crates db.versions r.name r.version = none →
        (r.name, r.version) ∈ unmatched_pairs db.crates db.versions rows) ∧
      (∀ vid date,
        (∀ x ∈ matched_inserts db.crates db.versions rows,
          ¬(vid = x.1 ∧ date = x.2.1)) →
        find_downloads db'.version_downloads vid date =
          find_downloads db.version_downloads vid date) ∧
      (∀ r ∈ rows, ∀ vid,
        lookup_version_id db.crates db.versions r.name r.version = some vid →
        find_downloads db'.version_downloads vid r.date =
          some ((find_downloads db.version_downloads vid r.date).getD 0 + r.downloads)) := by
  refine ⟨_, save_to_version_downloads_ok f db rows htemp hf hnodup, ?_, ?_, ?_⟩
  · intro r hr hlook
    rw [mem_unmatched_pairs]
    exact ⟨r, hr, rfl, rfl, hlook⟩
  · intro vid date hnotin
    exact find_apply_matched_of_not_mem db.version_downloads _ vid date hnotin
  · intro r hr vid hlook
    exact find_apply_matched_of_mem db.version_downloads _ vid r.date r.downloads
      (mem_matched_inserts db.crates db.versions rows r vid hr hlook) hnodup

/-- Witness for C3 at a batch containing one matched and one unmatched row. -/
theorem unmatched_rows_reported_not_fatal_witness :
    sampleStagedDb.temp_downloads = some sampleRows ∧
    noFaults.failMerge = false ∧
    ((matched_inserts sampleStagedDb.crates sampleStagedDb.versions sampleRows).map
        fun x => (x.1, x.2.1)).Nodup ∧
    (∃ db',
      save_to_version_downloads noFaults sampleStagedDb =
        .ok (db', unmatched_pairs sampleStagedDb.crates sampleStagedDb.versions
              sampleRows) ∧
      (∀ r ∈ sampleRows,
        lookup_version_id sampleStagedDb.crates sampleStagedDb.versions
            r.name r.version = none →
        (r.name, r.version) ∈ unmatched_pairs sampleStagedDb.crates
          sampleStagedDb.versions sampleRows) ∧
      (∀ vid date,
        (∀ x ∈ matched_inserts sampleStagedDb.crates sampleStagedDb.versions
            sampleRows, ¬(vid = x.1 ∧ date = x.2.1)) →
        find_downloads db'.version_downloads vid date =
          find_downloads sampleStagedDb.version_downloads vid date) ∧
      (∀ r ∈ sampleRows, ∀ vid,
        lookup_version_id sampleStagedDb.crates sampleStagedDb.versions
            r.name r.version = some vid →
        find_downloads db'.version_downloads vid r.date =
          some ((find_downloads sampleStagedDb.version_downloads vid r.date).getD 0 +
            r.downloads))) :=
  ⟨rfl, rfl, by decide,
    unmatched_rows_reported_not_fatal noFaults sampleStagedDb sampleRows rfl rfl
      (by decide)⟩

/-- C4: running the merge twice with the same `DownloadsMap`, starting from a
ledger with no entry for the inspected key, leaves the affected ledger entry
holding exactly twice the per-entry count of the map — additive re-run, not
overwrite. -/
theorem merge_twice_doubles_counts
    (m : DownloadsMap) (db : Db) (e : DownloadEntry) (vid : Nat)
    (htemp : db.temp_downloads = none)
    (hsmall : ∀ x ∈ m, x.2.2.2 ≤ 2 ^ 31 - 1)
    (hnodup : ((matched_inserts db.crates db.versions (staged_rows m)).map
        fun x => (x.1, x.2.1)).Nodup)
    (he : e ∈ m)
    (hvid : lookup_version_id db.crates db.versions e.1 e.2.1 = some vid)
    (hnone : find_downloads db.version_downloads vid e.2.2.1 = none) :
    find_downloads
      ((transaction (transaction db (save_downloads noFaults m)).1
          (save_downloads noFaults m)).1).version_downloads vid e.2.2.1
      = some (2 * (e.2.2.2 : Int)) := by
  have hfit : (staged_rows m).all (fun r => fitsInteger r.downloads) = true := by
    rw [List.all_eq_true]
    intro r hrr
    unfold staged_rows DownloadsMap.into_vec at hrr
    rw [List.mem_map] at hrr
    obtain ⟨x, hx, rfl⟩ := hrr
    exact fitsInteger_of_small _ (hsmall x hx)
  have h1 := save_downloads_ok noFaults m db htemp rfl rfl rfl hfit hnodup
  have ht1 : (transaction db (save_downloads noFaults m)).1 =
      ⟨db.crates, db.versions,
        apply_matched db.version_downloads
          (matched_inserts db.crates db.versions (staged_rows m)), none⟩ := by
    unfold transaction
    rw [h1]
  have h2 := save_downloads_ok noFaults m
    ⟨db.crates, db.versions,
      apply_matched db.version_downloads
        (matched_inserts db.crates db.versions (staged_rows m)), none⟩
    rfl rfl rfl rfl hfit hnodup
  have ht2 : (transaction
      (⟨db.crates, db.versions,
        apply_matched db.version_downloads
          (matched_inserts db.crates db.versions (staged_rows m)), none⟩ : Db)
      (save_downloads noFaults m)).1 =
      ⟨db.crates, db.versions,
        apply_matched
          (apply_matched db.version_downloads
            (matched_inserts db.crates db.versions (staged_rows m)))
          (matched_inserts db.crates db.versions (staged_rows m)), none⟩ := by
    unfold transaction
    rw [h2]
  have hmem : (vid, e.2.2.1, ((e.2.2.2 : Nat) : Int)) ∈
      matched_inserts db.crates db.versions (staged_rows m) := by
    have hst : NewDownload.fromEntry e ∈ staged_rows m := List.mem_map_of_mem _ he
    have h' := mem_matched_inserts db.crates db.versions (staged_rows m)
      (NewDownload.fromEntry e) vid hst hvid
    simp only [NewDownload.fromEntry] at h'
    rwa [u64_as_i64_of_small _ (hsmall e he)] at h'
  have hfind1 : find_downloads
      (apply_matched db.version_downloads
        (matched_inserts db.crates db.versions (staged_rows m))) vid e.2.2.1 =
      some ((e.2.2.2 : Int)) := by
    have h := find_apply_matched_of_mem db.version_downloads _ vid e.2.2.1 _ hmem hnodup
    rw [hnone] at h
    simpa using h
  have hfind2 : find_downloads
      (apply_matched
        (apply_matched db.version_downloads
          (matched_inserts db.crates db.versions (staged_rows m)))
        (matched_inserts db.crates db.versions (staged_rows m))) vid e.2.2.1 =
      some (2 * (e.2.2.2 : Int)) := by
    have h := find_apply_matched_of_mem
      (apply_matched db.version_downloads
        (matched_inserts db.crates db.versions (staged_rows m)))
      _ vid e.2.2.1 _ hmem hnodup
    rw [hfind1] at h
    simp only [Option.getD_some] at h
    rw [two_mul]
    exact h
  rw [ht1, ht2]
  exact hfind2

/-- Witness for C4: merging the sample map twice doubles the matched
entry's counter. -/
theorem merge_twice_doubles_counts_witness :
    sampleDb.temp_downloads = none ∧
    (∀ x ∈ sampleMap, x.2.2.2 ≤ 2 ^ 31 - 1) ∧
    ((matched_inserts sampleDb.crates sampleDb.versions (staged_rows sampleMap)).map
        fun x => (x.1, x.2.1)).Nodup ∧
    ("serde", "1.0.0", 20, 5) ∈ sampleMap ∧
    lookup_version_id sampleDb.crates sampleDb.versions "serde" "1.0.0" = some 7 ∧
    find_downloads sampleDb.version_downloads 7 20 = none ∧
    find_downloads
      ((transaction (transaction sampleDb (save_downloads noFaults sampleMap)).1
          (save_downloads noFaults sampleMap)).1).version_downloads 7 20
      = some (2 * ((5 : Nat) : Int)) :=
  ⟨rfl, by decide, by decide, by decide, rfl, rfl,
    merge_twice_doubles_counts sampleMap sampleDb ("serde", "1.0.0", 20, 5) 7
      rfl (by decide) (by decide) (by decide) rfl rfl⟩

/-- C5: with the write-mode flag false the run performs no database write at
all — the database, in particular the ledger, after the run equals the one
before it — and for a non-empty count result the top downloads are computed
and logged instead. -/
theorem report_only_mode_never_writes (db : Db) (res : Except LoadError DownloadsMap)
    (f : DbFaults) :
    (run db res false f).db = db ∧
    ∀ m, res = .ok m → DownloadsMap.is_empty m = false →
      run db res false f = ⟨db, [log_stats m, log_top_downloads m 30], .ok ()⟩ := by
  constructor
  · cases res with
    | error e => rfl
    | ok m =>
      by_cases hemp : DownloadsMap.is_empty m = true
      · simp [run, hemp]
      · rw [Bool.not_eq_true] at hemp
        simp [run, hemp]
  · rintro m rfl hemp
    simp [run, hemp]

/-- Witness for C5 at the sample map. -/
theorem report_only_mode_never_writes_witness :
    DownloadsMap.is_empty sampleMap = false ∧
    run sampleDb (.ok sampleMap) false noFaults =
      ⟨sampleDb, [log_stats sampleMap, log_top_downloads sampleMap 30], .ok ()⟩ :=
  ⟨by decide,
    (report_only_mode_never_writes sampleDb (.ok sampleMap) noFaults).2
      sampleMap rfl (by decide)⟩

/-- C6: a run whose count result is the empty `DownloadsMap` terminates
successfully as a no-op: the database is untouched, no statistics and no
merge or report step is performed, and the only log line is the
"No downloads found" message. -/
theorem empty_map_run_is_noop (db : Db) (w : Bool) (f : DbFaults) :
    run db (.ok ([] : DownloadsMap)) w f = ⟨db, [.noDownloads], .ok ()⟩ := by
  simp [run, DownloadsMap.is_empty]

/-- C8: the staging relation is transaction-scoped — created `ON COMMIT
DROP` inside the transaction, it never survives the end of the transaction,
whether it commits or rolls back, and is never observable outside of it. -/
theorem temp_table_never_survives_transaction (db : Db) (m : DownloadsMap)
    (f : DbFaults) (htemp : db.temp_downloads = none) :
    (transaction db (save_downloads f m)).1.temp_downloads = none ∧
    (run db (.ok m) true f).db.temp_downloads = none := by
  have h1 : (transaction db (save_downloads f m)).1.temp_downloads = none := by
    unfold transaction
    cases hs : save_downloads f m db with
    | ok a =>
      obtain ⟨db', lg⟩ := a
      rfl
    | error e => exact htemp
  refine ⟨h1, ?_⟩
  by_cases hemp : DownloadsMap.is_empty m = true
  · simp [run, hemp, htemp]
  · rw [Bool.not_eq_true] at hemp
    rcases htr : transaction db (save_downloads f m) with ⟨db', r⟩
    rw [htr] at h1
    simp at h1
    cases r with
    | ok lg => simp [run, hemp, htr, h1]
    | error e => simp [run, hemp, htr, h1]

/-- Witness for C8 at the sample database and map. -/
theorem temp_table_never_survives_transaction_witness :
    sampleDb.temp_downloads = none ∧
    (transaction sampleDb (save_downloads noFaults sampleMap)).1.temp_downloads =
      none ∧
    (run sampleDb (.ok sampleMap) true noFaults).db.temp_downloads = none :=
  ⟨rfl,
    (temp_table_never_survives_transaction sampleDb sampleMap noFaults rfl).1,
    (temp_table_never_survives_transaction sampleDb sampleMap noFaults rfl).2⟩

/-- C9: when selecting a decompressor for the file's extension fails, the run
fails with that error before the log counter consumes any input — the
counter is never invoked, which the theorem expresses by quantifying over
every possible counter. -/
theorem unsupported_extension_fails_before_counting
    (ext : Option String) (e : LoadError)
    (hsel : decompressor_from_extension ext = .error e) :
    ∀ (counter : Decompressor → Except LoadError DownloadsMap) (db : Db)
      (w : Bool) (f : DbFaults),
      load_and_count (.ok ()) ext counter = .error e ∧
      run db (load_and_count (.ok ()) ext counter) w f = ⟨db, [], .error (.load e)⟩ := by
  intro counter db w f
  have hl : load_and_count (.ok ()) ext counter = .error e := by
    unfold load_and_count
    rw [hsel]
  exact ⟨hl, by rw [hl]; rfl⟩

/-- Witness for C9 at an unrecognized `.txt` extension. -/
theorem unsupported_extension_fails_before_counting_witness :
    decompressor_from_extension (some "txt") = .error (.unsupportedFormat "txt") ∧
    load_and_count (.ok ()) (some "txt") (fun _ => .ok sampleMap) =
      .error (.unsupportedFormat "txt") ∧
    run sampleDb (load_and_count (.ok ()) (some "txt") (fun _ => .ok sampleMap))
        true noFaults =
      ⟨sampleDb, [], .error (.load (.unsupportedFormat "txt"))⟩ :=
  ⟨rfl,
    (unsupported_extension_fails_before_counting (some "txt")
      (.unsupportedFormat "txt") rfl (fun _ => .ok sampleMap) sampleDb true
      noFaults).1,
    (unsupported_extension_fails_before_counting (some "txt")
      (.unsupportedFormat "txt") rfl (fun _ => .ok sampleMap) sampleDb true
      noFaults).2⟩

/-- C7: the top-N report lists at most N entries, ordered by download count
descending, with ties broken by the original order of the exported sequence
(the sort is stable: any descending-sorted subsequence of the input survives
as a subsequence of the sorted output); in particular a map with counts
[5, 100, 1] is reported as [100, 5, 1] for N = 3 and as the top 2 for N = 2. -/
theorem top_downloads_bounded_sorted_stable (m : DownloadsMap) (num : Nat) :
    (top_downloads m num).length ≤ num ∧
    (top_downloads m num).Pairwise (fun a b => b.2.2.2 ≤ a.2.2.2) ∧
    (∀ c : List DownloadEntry, c.Pairwise (fun a b => by_downloads_desc a b = true) →
      c.Sublist (DownloadsMap.into_vec m) →
      c.Sublist ((DownloadsMap.into_vec m).mergeSort by_downloads_desc)) ∧
    top_downloads [("a", "1", 1, 5), ("b", "2", 2, 100), ("c", "3", 3, 1)] 3 =
      [("b", "2", 2, 100), ("a", "1", 1, 5), ("c", "3", 3, 1)] ∧
    top_downloads [("a", "1", 1, 5), ("b", "2", 2, 100), ("c", "3", 3, 1)] 2 =
      [("b", "2", 2, 100), ("a", "1", 1, 5)] := by
  refine ⟨?_, ?_, ?_, ?_, ?_⟩
  · exact List.length_take_le num _
  · have hs := List.sorted_mergeSort by_downloads_desc_trans by_downloads_desc_total
      (DownloadsMap.into_vec m)
    have ht := List.Pairwise.sublist (List.take_sublist num _) hs
    exact ht.imp (fun h => by simpa [by_downloads_desc] using h)
  · intro c hc hsub
    exact List.sublist_mergeSort by_downloads_desc_trans by_downloads_desc_total
      hc hsub
  · simp [top_downloads, DownloadsMap.into_vec, List.mergeSort, by_downloads_desc]
  · simp [top_downloads, DownloadsMap.into_vec, List.mergeSort, by_downloads_desc]

/-- C10 (counterexample): the claim that any count above `2^31 - 1` cannot be
bulk-loaded into the staging relation is false — the count `2^64 - 1`
exceeds `2^31 - 1`, yet its `as i64` cast wraps to `-1`, which fits the
`INTEGER` column, so the bulk load succeeds (storing a negative count). -/
theorem oversized_count_loads_after_wraparound :
    2 ^ 31 - 1 < (2 ^ 64 - 1 : Nat) ∧
    u64_as_i64 (2 ^ 64 - 1) = -1 ∧
    fill_temp_downloads_table noFaults [("big", "1.0.0", 1, 2 ^ 64 - 1)]
        ⟨[], [], [], some []⟩ =
      .ok ⟨[], [], [], some [⟨"big", "1.0.0", 1, -1⟩]⟩ := by
  refine ⟨by norm_num, by decide, by rfl⟩

/-- C10 (amended): the `u64 as i64` cast preserves the numeric value exactly
when the count is at most `2^63 - 1` and wraps larger counts to negative
values; because the staging table's `downloads` column is declared as 32-bit
`INTEGER` while the Diesel mapping declares `BigInt`, a count is
bulk-loadable exactly when its cast lies within the `INTEGER` range — so
counts strictly between `2^31 - 1` and `2^64 - 2^31` cannot be bulk-loaded,
while counts of at least `2^64 - 2^31` wrap to in-range negative values. -/
theorem staged_count_cast_and_integer_range (n : Nat) (h64 : n < 2 ^ 64) :
    ((u64_as_i64 n = (n : Int)) ↔ n ≤ 2 ^ 63 - 1) ∧
    (2 ^ 63 - 1 < n → u64_as_i64 n < 0) ∧
    (fitsInteger (u64_as_i64 n) = true ↔ (n ≤ 2 ^ 31 - 1 ∨ 2 ^ 64 - 2 ^ 31 ≤ n)) ∧
    (∀ (name ver : String) (d : Date) (db : Db) (rows : List NewDownload),
      db.temp_downloads = some rows → 2 ^ 31 - 1 < n → n < 2 ^ 64 - 2 ^ 31 →
      fill_temp_downloads_table noFaults [(name, ver, d, n)] db =
        .error .integerOutOfRange) := by
  have hcast : u64_as_i64 n =
      if n < 2 ^ 63 then (n : Int) else (n : Int) - 2 ^ 64 := by
    unfold u64_as_i64
    rw [Nat.mod_eq_of_lt h64]
  have hfits : fitsInteger (u64_as_i64 n) = true ↔
      (n ≤ 2 ^ 31 - 1 ∨ 2 ^ 64 - 2 ^ 31 ≤ n) := by
    unfold fitsInteger
    rw [hcast]
    by_cases hc : n < 2 ^ 63
    · rw [if_pos hc]
      simp only [Bool.and_eq_true, decide_eq_true_eq]
      omega
    · rw [if_neg hc]
      simp only [Bool.and_eq_true, decide_eq_true_eq]
      omega
  refine ⟨?_, ?_, hfits, ?_⟩
  · rw [hcast]
    by_cases hc : n < 2 ^ 63
    · rw [if_pos hc]
      simp only [true_iff]
      omega
    · rw [if_neg hc]
      constructor
      · intro heq
        exfalso
        omega
      · intro hle
        exfalso
        omega
  · intro hgt
    rw [hcast, if_neg (by omega)]
    omega
  · intro name ver d db rows htemp h31 hup
    have hnf : fitsInteger (u64_as_i64 n) = false := by
      cases hb : fitsInteger (u64_as_i64 n) with
      | false => rfl
      | true => exact absurd (hfits.mp hb) (by omega)
    have hall : (staged_rows [(name, ver, d, n)]).all
        (fun r => fitsInteger r.downloads) = false := by
      simp [staged_rows, DownloadsMap.into_vec, NewDownload.fromEntry, hnf]
    unfold fill_temp_downloads_table
    rw [htemp]
    simp [hall, noFaults]

/-- Witness for the amended C10 at the count `2^32`, which is above the
`INTEGER` range and below the wraparound region, so it cannot be staged. -/
theorem staged_count_cast_and_integer_range_witness :
    (2 : Nat) ^ 32 < 2 ^ 64 ∧
    (((u64_as_i64 (2 ^ 32) = ((2 ^ 32 : Nat) : Int)) ↔ (2 : Nat) ^ 32 ≤ 2 ^ 63 - 1) ∧
     (2 ^ 63 - 1 < (2 : Nat) ^ 32 → u64_as_i64 (2 ^ 32) < 0) ∧
     (fitsInteger (u64_as_i64 (2 ^ 32)) = true ↔
       ((2 : Nat) ^ 32 ≤ 2 ^ 31 - 1 ∨ 2 ^ 64 - 2 ^ 31 ≤ (2 : Nat) ^ 32)) ∧
     (∀ (name ver : String) (d : Date) (db : Db) (rows : List NewDownload),
       db.temp_downloads = some rows →
       2 ^ 31 - 1 < (2 : Nat) ^ 32 → (2 : Nat) ^ 32 < 2 ^ 64 - 2 ^ 31 →
       fill_temp_downloads_table noFaults [(name, ver, d, 2 ^ 32)] db =
         .error .integerOutOfRange)) :=
  ⟨by norm_num, staged_count_cast_and_integer_range (2 ^ 32) (by norm_num)⟩

end ProcessCdnLog
